import Mathlib

/-!
# Verification of the x-builder R2 static-site storage/serving layer

Shallow embedding of the R2 sites worker (`workers/r2-sites/src/index.ts`),
the server-side R2 uploader and retention utilities
(`app/lib/.server/r2/*`), and the publish/delete API routes
(`app/routes/api.publish.ts`, `app/routes/api.publish.delete.ts`).

External effects (the R2 bucket, per-object put/delete outcomes, date
parsing) are passed in as explicit function parameters, so that each
handler becomes a pure function of its inputs and those oracles.
-/

namespace XBuilder

/-! ## JavaScript string primitives

Modelled on the character list underlying the string, so that every
operation evaluates by kernel reduction. All strings handled by this layer
are ASCII, where JS UTF-16 indexing and codepoint indexing agree. -/

/-- Model of `s.startsWith(pre)`. -/
def strStartsWith (s pre : String) : Bool :=
  pre.toList.isPrefixOf s.toList

/-- Model of `s.endsWith(suf)`. -/
def strEndsWith (s suf : String) : Bool :=
  suf.toList.isSuffixOf s.toList

/-- Model of `s.includes(c)` for a single character. -/
def strContainsChar (s : String) (c : Char) : Bool :=
  s.toList.contains c

/-- Model of `s.slice(n)` for non-negative `n`. -/
def strDrop (s : String) (n : Nat) : String :=
  String.mk (s.toList.drop n)

/-- Remove the last `n` characters (`s.slice(0, -n)` on a long-enough string). -/
def strDropRight (s : String) (n : Nat) : String :=
  String.mk (s.toList.take (s.toList.length - n))

/-- JavaScript truthiness for an optional string: `null`/`undefined` and the
empty string are falsy. Used to model `if (!value)` checks on env vars and
headers. -/
def jsFalsyStr : Option String → Bool
  | none => true
  | some s => s == ""

/-- A JSON error/result response as produced by `jsonResponse({error}, status)`. -/
structure JsonResponse where
  status : Nat
  error : String
deriving DecidableEq

/-! ## Auth gate: worker layer (`validateInternalToken` in the worker) -/

def workerMisconfigured : JsonResponse :=
  ⟨500, "Server misconfigured: R2_SITES_WORKER_TOKEN not set."⟩

def workerMissingHeader : JsonResponse :=
  ⟨401, "Missing Authorization header."⟩

def workerBadFormat : JsonResponse :=
  ⟨401, "Invalid Authorization header format. Expected: Bearer <token>"⟩

def workerInvalidToken : JsonResponse :=
  ⟨401, "Invalid token. Authentication failed."⟩

/-- Model of `validateInternalToken(request, env)`: checks `env.R2_SITES_WORKER_TOKEN`
first (falsy → misconfigured 500), then the `Authorization` header (absent →
401 missing, not `Bearer `-prefixed → 401 format, wrong token after
`slice(7)` → 401 invalid). Returns `none` when the token is valid. -/
def validateInternalToken (authHeader expectedToken : Option String) : Option JsonResponse :=
  match expectedToken with
  | none => some workerMisconfigured
  | some tok =>
    if tok == "" then some workerMisconfigured
    else
      match authHeader with
      | none => some workerMissingHeader
      | some h =>
        if h == "" then some workerMissingHeader
        else if ¬ (strStartsWith h "Bearer ") then some workerBadFormat
        else if strDrop h 7 = tok then none
        else some workerInvalidToken

/-! ## Auth gate: outer layer, publish route (`validatePublishToken`) -/

def publishMisconfigured : JsonResponse :=
  ⟨500, "Server misconfigured: PUBLISH_TOKEN not set."⟩

def publishMissingToken : JsonResponse :=
  ⟨401, "Missing X-Publish-Token header. Authentication required for r2_worker provider."⟩

def publishInvalidToken : JsonResponse :=
  ⟨401, "Invalid X-Publish-Token. Authentication failed."⟩

/-- Model of `validatePublishToken(request, env)` from the publish route: checks
`env.PUBLISH_TOKEN` (falsy → 500 misconfigured), then the `X-Publish-Token`
header (absent → 401 missing, mismatch → 401 invalid). -/
def validatePublishToken (providedToken expectedToken : Option String) : Option JsonResponse :=
  match expectedToken with
  | none => some publishMisconfigured
  | some tok =>
    if tok == "" then some publishMisconfigured
    else
      match providedToken with
      | none => some publishMissingToken
      | some p =>
        if p == "" then some publishMissingToken
        else if p = tok then none
        else some publishInvalidToken

/-! ## Auth gate: outer layer, admin delete route (`api.publish.delete.ts`) -/

def adminMisconfigured : JsonResponse :=
  ⟨500, "Admin token not configured. Set PUBLISH_ADMIN_TOKEN."⟩

def adminUnauthorized : JsonResponse :=
  ⟨401, "Unauthorized. Invalid or missing admin token."⟩

/-- The admin-token check at the top of the delete route action:
`if (!adminToken) 500; if (!providedToken || providedToken !== adminToken) 401`.
Note the single combined 401 branch for missing and invalid tokens. -/
def validateAdminToken (adminToken providedToken : Option String) : Option JsonResponse :=
  match adminToken with
  | none => some adminMisconfigured
  | some tok =>
    if tok == "" then some adminMisconfigured
    else
      match providedToken with
      | none => some adminUnauthorized
      | some p =>
        if p == "" then some adminUnauthorized
        else if p = tok then none
        else some adminUnauthorized

/-! ## Worker HTTP dispatch (`fetch` in the worker) -/

/-- Where the worker's `fetch` dispatch ends up: either an immediate response
(auth error / 404 / health), or entry into one of the handler bodies. The
handler constructors carry no bucket effects: reaching one is the only way
the request body or the object store is ever touched. -/
inductive Dispatch where
  | response (r : JsonResponse)
  | health
  | upload
  | deleteDeployment
  | listDeployments (projectId : String)
  | cleanup
  | serve (pathname : String)
deriving DecidableEq

structure WorkerRequest where
  method : String
  pathname : String
  authHeader : Option String

/-- The worker's `fetch` routing, in source order: `/health`, then the three
protected POST endpoints (each gated by `validateInternalToken` before its
handler runs), then the public GET routes, then 404. -/
def workerFetch (req : WorkerRequest) (envToken : Option String) : Dispatch :=
  if req.pathname == "/health" then .health
  else if req.method == "POST" && req.pathname == "/upload" then
    match validateInternalToken req.authHeader envToken with
    | some e => .response e
    | none => .upload
  else if req.method == "POST" && req.pathname == "/delete" then
    match validateInternalToken req.authHeader envToken with
    | some e => .response e
    | none => .deleteDeployment
  else if req.method == "GET" && strStartsWith req.pathname "/deployments/" then
    .listDeployments (strDrop req.pathname 13)
  else if req.method == "POST" && req.pathname == "/cleanup" then
    match validateInternalToken req.authHeader envToken with
    | some e => .response e
    | none => .cleanup
  else if req.method == "GET" && strStartsWith req.pathname "/sites/" then
    .serve req.pathname
  else .response ⟨404, "Not Found"⟩

/-! ## MIME resolver (`mime-types.ts` / the worker's identical copy) -/

/-- The fixed extension table `MIME_TYPES`. -/
def MIME_TYPES : List (String × String) :=
  [("html", "text/html; charset=utf-8"), ("htm", "text/html; charset=utf-8"),
   ("css", "text/css; charset=utf-8"), ("js", "application/javascript; charset=utf-8"),
   ("mjs", "application/javascript; charset=utf-8"), ("json", "application/json; charset=utf-8"),
   ("png", "image/png"), ("jpg", "image/jpeg"), ("jpeg", "image/jpeg"), ("gif", "image/gif"),
   ("svg", "image/svg+xml"), ("ico", "image/x-icon"), ("woff", "font/woff"),
   ("woff2", "font/woff2"), ("ttf", "font/ttf"), ("txt", "text/plain; charset=utf-8"),
   ("xml", "application/xml"), ("webp", "image/webp"), ("mp4", "video/mp4"),
   ("webm", "video/webm"), ("mp3", "audio/mpeg"), ("wav", "audio/wav"),
   ("pdf", "application/pdf"), ("wasm", "application/wasm"), ("map", "application/json")]

/-- One step of the character split: prepend `c` to the first segment of the
tail's split, or start a fresh empty segment when `c` is the separator. -/
def splitConsCase (sep c : Char) : List (List Char) → List (List Char)
  | [] => [[]]
  | s :: ss => if c = sep then [] :: s :: ss else (c :: s) :: ss

/-- JavaScript `String.prototype.split` with a one-character separator:
`"".split('.')` is `[""]`, separators at the ends produce empty segments. -/
def splitChar (sep : Char) : List Char → List (List Char)
  | [] => [[]]
  | c :: rest => splitConsCase sep c (splitChar sep rest)

theorem splitChar_cons (sep c : Char) (rest : List Char) :
    splitChar sep (c :: rest) = splitConsCase sep c (splitChar sep rest) := rfl

theorem splitConsCase_cons (sep c : Char) (s : List Char) (ss : List (List Char)) :
    splitConsCase sep c (s :: ss) = if c = sep then [] :: s :: ss else (c :: s) :: ss := rfl

/-- Model of `getMimeType(path)`: `path.split('.').pop()?.toLowerCase() || ''` looked up
in `MIME_TYPES`, falling back to `application/octet-stream`. Note that
`split('.').pop()` on a path with no `.` yields the whole path, not `''`. -/
def getMimeType (path : String) : String :=
  let ext := String.mk (((splitChar '.' path.toList).getLastD []).map Char.toLower)
  (MIME_TYPES.lookup ext).getD "application/octet-stream"

/-! ## Key builder and deployment-id generator -/

/-- Model of `buildR2Key(projectId, deploymentId, filePath)`: plain `/`-joined
concatenation. -/
def buildR2Key (projectId deploymentId filePath : String) : String :=
  projectId ++ "/" ++ deploymentId ++ "/" ++ filePath

/-- Character for one base-36 digit, as produced by `Number.prototype.toString(36)`:
`0`-`9` then `a`-`z`. -/
def base36DigitChar (d : Fin 36) : Char :=
  if d.val < 10 then Char.ofNat (48 + d.val) else Char.ofNat (87 + d.val)

/-- Model of `Math.random().toString(36)` for a draw in `[0,1)`, represented by its
(trailing-zero-free) base-36 fraction digits: `0` prints as `"0"`, any other
value as `"0."` followed by its digits. -/
def randomToString36 (ds : List (Fin 36)) : String :=
  match ds with
  | [] => "0"
  | _ :: _ => "0." ++ String.mk (ds.map base36DigitChar)

/-- JavaScript `String.prototype.substring(a, b)` for `a ≤ b` (indices clamp
to the string length). -/
def jsSubstring (s : String) (a b : Nat) : String :=
  String.mk ((s.toList.drop a).take (b - a))

/-- The random suffix `Math.random().toString(36).substring(2, 8)`. -/
def deploySuffix (ds : List (Fin 36)) : String :=
  jsSubstring (randomToString36 ds) 2 8

/-- Model of `generateDeploymentId()`: the template literal joining the word
`deploy`, the current millisecond timestamp, and the random suffix with
dashes, with the timestamp and the random draw made explicit. -/
def generateDeploymentId (timestampMs : Nat) (ds : List (Fin 36)) : String :=
  "deploy-" ++ Nat.repr timestampMs ++ "-" ++ deploySuffix ds

/-- Consume an expected literal from the front of a char list, returning the
remainder on success. -/
def consumeLit : List Char → List Char → Option (List Char)
  | [], cs => some cs
  | _ :: _, [] => none
  | p :: ps, c :: cs => if c = p then consumeLit ps cs else none

def isLowerAlnum (c : Char) : Bool :=
  c.isDigit || (decide ('a' ≤ c) && decide (c ≤ 'z'))

/-- After the digit run: a literal `-` followed by a nonempty `[a-z0-9]+` run
reaching the end of the string. -/
def dashSuffixCheck : List Char → Bool
  | '-' :: suf => (decide (suf ≠ [])) && suf.all isLowerAlnum
  | _ => false

/-- After the `deploy-` literal: a nonempty digit run, then `dashSuffixCheck`. -/
def patternTail (rest : List Char) : Bool :=
  (decide (rest.takeWhile Char.isDigit ≠ [])) && dashSuffixCheck (rest.dropWhile Char.isDigit)

/-- Decider for the validation regex `DEPLOYMENT_ID_PATTERN = ^deploy-\d+-[a-z0-9]+$`
(the digit run and the dash are disjoint, so maximal-munch is equivalent to
the regex). -/
def matchesDeploymentIdPattern (s : String) : Bool :=
  ((consumeLit "deploy-".toList s.toList).map patternTail).getD false

/-! ## Upload pipeline (`uploadToR2` / the worker's `handleUpload` loop) -/

/-- The manifest object written at `{projectId}/{deploymentId}/_manifest.json`. -/
structure DeploymentManifest where
  projectId : String
  deploymentId : String
  files : List String
  createdAt : String
  fileCount : Nat
deriving DecidableEq

structure R2PublishResult where
  success : Bool
  projectId : String
  deploymentId : String
  url : String
  uploadedFiles : List String
  errors : Option (List String)
deriving DecidableEq

/-- Model of the path normalization `filePath.startsWith('/') ? filePath.slice(1) : filePath`. -/
def normalizePath (p : String) : String :=
  if strStartsWith p "/" then strDrop p 1 else p

/-- The per-file upload loop. `putFail key content` is the outcome of
`bucket.put(key, content, …)`: `none` on success, `some message` when the put
throws (message already being `err.message` or `'Unknown error'`). Returns
`(uploadedFiles, errors)` in iteration order; a failing file contributes
`"<path>: <message>"` to `errors` and the loop continues. -/
def uploadLoop (putFail : String → String → Option String) (projectId deploymentId : String) :
    List (String × String) → List String × List String
  | [] => ([], [])
  | (filePath, content) :: rest =>
    let np := normalizePath filePath
    let res := uploadLoop putFail projectId deploymentId rest
    match putFail (buildR2Key projectId deploymentId np) content with
    | none => (np :: res.1, res.2)
    | some msg => (res.1, (np ++ ": " ++ msg) :: res.2)

def stripTrailingSlash (s : String) : String :=
  if strEndsWith s "/" then strDropRight s 1 else s

/-- Model of `uploadToR2(bucket, request, workerBaseUrl)`: runs the per-file loop, then
builds and writes the manifest unconditionally, then returns the result.
The manifest value written is returned alongside the result. `createdAt` is
the ISO timestamp taken at manifest-write time. -/
def uploadToR2 (putFail : String → String → Option String) (files : List (String × String))
    (projectId deploymentId createdAt workerBaseUrl : String) :
    R2PublishResult × DeploymentManifest :=
  let res := uploadLoop putFail projectId deploymentId files
  let manifest : DeploymentManifest :=
    { projectId, deploymentId, files := res.1, createdAt, fileCount := res.1.length }
  let url := stripTrailingSlash workerBaseUrl ++ "/sites/" ++ projectId ++ "/" ++
    deploymentId ++ "/index.html"
  ({ success := res.2.isEmpty, projectId, deploymentId, url,
     uploadedFiles := res.1,
     errors := if res.2.isEmpty then none else some res.2 }, manifest)

/-! ## Serve pipeline (`handleServe`) -/

/-- A stored R2 object as the serve path sees it: body, etag (R2's content
hash), and the content type recorded in `httpMetadata` at upload time. -/
structure R2Object where
  body : String
  etag : String
  contentTypeMeta : Option String
deriving DecidableEq

/-- The index.html fallback candidate for a directory-like path. -/
def indexCandidate (filePath : String) : String :=
  if strEndsWith filePath "/" then filePath ++ "index.html" else filePath ++ "/index.html"

/-- Model of `pathsToTry`: the exact path always; when the path contains no `.`, also
the index.html candidate. -/
def pathsToTry (filePath : String) : List String :=
  if strContainsChar filePath '.' then [filePath] else [filePath, indexCandidate filePath]

/-- The lookup loop of `handleServe`: first object found wins. Returns the
winning try-path together with the object. -/
def firstFound (store : String → Option R2Object) (projectId deploymentId : String) :
    List String → Option (String × R2Object)
  | [] => none
  | p :: ps =>
    match store (buildR2Key projectId deploymentId p) with
    | some o => some (p, o)
    | none => firstFound store projectId deploymentId ps

structure ServeResponse where
  status : Nat
  body : Option String
  contentType : Option String
  etag : Option String
  cacheControl : Option String
deriving DecidableEq

def notFoundResponse (filePath : String) : ServeResponse :=
  ⟨404, some ("File not found: " ++ filePath), some "text/plain", none, none⟩

/-- Model of `object.httpMetadata?.contentType || getMimeType(tryPath)`. -/
def serveContentType (tryPath : String) (o : R2Object) : String :=
  match o.contentTypeMeta with
  | some ct => if ct == "" then getMimeType tryPath else ct
  | none => getMimeType tryPath

/-- Model of `handleServe` after route parsing: try the candidate paths in order; on a
hit, build the headers (content type, immutable cache control, etag) and
answer 304 with no body when `If-None-Match` equals the object's etag, else
200 with the body; on a miss, 404 naming the requested path. -/
def serveResponse (store : String → Option R2Object) (ifNoneMatch : Option String)
    (projectId deploymentId filePath : String) : ServeResponse :=
  match firstFound store projectId deploymentId (pathsToTry filePath) with
  | none => notFoundResponse filePath
  | some (tryPath, o) =>
    let ct := serveContentType tryPath o
    let cc := some "public, max-age=31536000, immutable"
    if ifNoneMatch = some o.etag then ⟨304, none, some ct, some o.etag, cc⟩
    else ⟨200, some o.body, some ct, some o.etag, cc⟩

/-! ## Delete pipeline (`handleDelete` / `deleteDeployment`) -/

structure R2DeleteResult where
  success : Bool
  deletedCount : Nat
  projectId : String
  deploymentId : String
deriving DecidableEq

/-- The per-object delete loop: `deleteOk key` is whether `bucket.delete(key)`
succeeds; a throw is swallowed and the loop continues, so the result is the
number of successful deletes. -/
def deleteLoop (deleteOk : String → Bool) : List String → Nat
  | [] => 0
  | k :: ks => (if deleteOk k then 1 else 0) + deleteLoop deleteOk ks

/-- Model of `deleteDeployment(bucket, projectId, deploymentId)`: list everything under
`{projectId}/{deploymentId}/`, delete each object (continuing on error), and
report `success: true` with the aggregate count. `listKeys` is the bucket's
prefix listing. -/
def deleteDeployment (listKeys : String → List String) (deleteOk : String → Bool)
    (projectId deploymentId : String) : R2DeleteResult :=
  let keys := listKeys (projectId ++ "/" ++ deploymentId ++ "/")
  { success := true, deletedCount := deleteLoop deleteOk keys, projectId, deploymentId }

/-! ## Retention / cleanup pipeline (`handleCleanup` / `cleanupOldDeployments`) -/

/-- Stable descending insertion by parsed `createdAt` (`time` plays the role
of `new Date(s).getTime()`): an element is inserted after all existing
elements with a greater-or-equal timestamp. -/
def insertDesc (time : String → Int) (m : DeploymentManifest) :
    List DeploymentManifest → List DeploymentManifest
  | [] => [m]
  | x :: xs =>
    if time x.createdAt ≤ time m.createdAt then m :: x :: xs
    else x :: insertDesc time m xs

/-- Model of `manifests.sort((a, b) => time(b.createdAt) - time(a.createdAt))`:
newest first. -/
def sortByCreatedAtDesc (time : String → Int) : List DeploymentManifest → List DeploymentManifest
  | [] => []
  | m :: rest => insertDesc time m (sortByCreatedAtDesc time rest)

/-- Model of `cleanupOldDeployments` on the parseable manifests of a project: sort
newest-first; nothing to do when at most `retentionCount` remain; otherwise
delete every deployment beyond the newest `retentionCount` (reported here as
the list of deleted deployment ids, in deletion order). -/
def cleanupOldDeployments (time : String → Int) (retentionCount : Nat)
    (manifests : List DeploymentManifest) : List String :=
  let sorted := sortByCreatedAtDesc time manifests
  if sorted.length ≤ retentionCount then []
  else (sorted.drop retentionCount).map (fun m => m.deploymentId)

/-- The project's manifests after a cleanup run: deleting a deployment removes
its whole key prefix, manifest object included, so the manifests whose
deployment id was deleted are gone. -/
def afterCleanup (time : String → Int) (retentionCount : Nat)
    (manifests : List DeploymentManifest) : List DeploymentManifest :=
  manifests.filter
    (fun m => !((cleanupOldDeployments time retentionCount manifests).contains m.deploymentId))

/-- Model of the `Array.prototype.slice(start)` start index: negative values count from the
end (clamped at 0), non-negative values clamp at the length. -/
def jsSliceStart (len : Nat) (n : Int) : Nat :=
  if n < 0 then len - n.natAbs else n.toNat

def jsSlice {α : Type} (l : List α) (n : Int) : List α :=
  l.drop (jsSliceStart l.length n)

/-- The worker's `handleCleanup` body after manifest listing, with the
request's `retentionCount` field as it arrives in the JSON body
(`none` = absent). The destructuring default
`retentionCount = DEFAULT_RETENTION_COUNT` applies only when the field is
absent; any supplied number — zero or negative included — is used as-is by
the `length <= retentionCount` check and `manifests.slice(retentionCount)`. -/
def handleCleanupDeleted (time : String → Int) (retentionCount : Option Int)
    (manifests : List DeploymentManifest) : List String :=
  let r := retentionCount.getD 5
  let sorted := sortByCreatedAtDesc time manifests
  if (sorted.length : Int) ≤ r then []
  else (jsSlice sorted r).map (fun m => m.deploymentId)

/-! ## Retention-count env parsing (`getRetentionCount`) -/

/-- The numeric value of the longest leading digit run, or `none` when there
is no leading digit. -/
def parseDigitsVal (cs : List Char) : Option Nat :=
  let ds := cs.takeWhile Char.isDigit
  if ds.isEmpty then none
  else some (ds.foldl (fun a c => a * 10 + (c.toNat - 48)) 0)

/-- Model of `parseInt(s, 10)`: skip leading whitespace, optional sign, then the
longest digit run; `none` models `NaN`. -/
def jsParseInt (s : String) : Option Int :=
  let cs := s.toList.dropWhile Char.isWhitespace
  match cs with
  | '-' :: rest => (parseDigitsVal rest).map (fun n => -(n : Int))
  | '+' :: rest => (parseDigitsVal rest).map (fun n => (n : Int))
  | _ => (parseDigitsVal cs).map (fun n => (n : Int))

/-- Model of `getRetentionCount(envValue)`: falsy env value → 5; otherwise
`parseInt(envValue, 10)`, replaced by 5 when `NaN` or `< 1`. -/
def getRetentionCount (envValue : Option String) : Int :=
  match envValue with
  | none => 5
  | some s =>
    if s == "" then 5
    else
      match jsParseInt s with
      | none => 5
      | some p => if p < 1 then 5 else p

/-! # Theorems -/

/-! ## C1: upload is best-effort per file, manifest written unconditionally -/

/-- The normalized paths whose put succeeded, in iteration order. -/
def successfulPaths (putFail : String → String → Option String) (projectId deploymentId : String)
    (files : List (String × String)) : List String :=
  files.filterMap (fun fc =>
    match putFail (buildR2Key projectId deploymentId (normalizePath fc.1)) fc.2 with
    | none => some (normalizePath fc.1)
    | some _ => none)

/-- The `"<path>: <message>"` error strings of the failing puts, in iteration
order. -/
def uploadErrorList (putFail : String → String → Option String) (projectId deploymentId : String)
    (files : List (String × String)) : List String :=
  files.filterMap (fun fc =>
    (putFail (buildR2Key projectId deploymentId (normalizePath fc.1)) fc.2).map
      (fun msg => normalizePath fc.1 ++ ": " ++ msg))

theorem uploadLoop_eq (putFail : String → String → Option String) (pid did : String)
    (files : List (String × String)) :
    uploadLoop putFail pid did files =
      (successfulPaths putFail pid did files, uploadErrorList putFail pid did files) := by
  induction files with
  | nil => rfl
  | cons fc rest ih =>
    obtain ⟨fp, c⟩ := fc
    simp only [uploadLoop, ih, successfulPaths, uploadErrorList, List.filterMap_cons]
    cases h : putFail (buildR2Key pid did (normalizePath fp)) c <;> simp [h]

/-- C1: during upload, every per-file write failure is caught individually and
recorded as a `"<path>: <message>"` string in the errors list without aborting
the loop (the returned error list is exactly `uploadErrorList`, which has one
formatted entry for each failing file of the whole input); after the loop, the
manifest is built with `files` equal to the successfully written paths and
`fileCount` equal to their number; the result has `success` true iff the
errors list is empty. -/
theorem upload_best_effort (putFail : String → String → Option String)
    (files : List (String × String)) (pid did createdAt base : String) :
    (uploadToR2 putFail files pid did createdAt base).1.uploadedFiles =
        successfulPaths putFail pid did files
    ∧ (uploadToR2 putFail files pid did createdAt base).2.files =
        successfulPaths putFail pid did files
    ∧ (uploadToR2 putFail files pid did createdAt base).2.fileCount =
        (successfulPaths putFail pid did files).length
    ∧ (uploadLoop putFail pid did files).2 = uploadErrorList putFail pid did files
    ∧ ((uploadToR2 putFail files pid did createdAt base).1.success = true
        ↔ uploadErrorList putFail pid did files = [])
    ∧ (uploadToR2 putFail files pid did createdAt base).1.errors =
        (if uploadErrorList putFail pid did files = [] then none
         else some (uploadErrorList putFail pid did files)) := by
  have h := uploadLoop_eq putFail pid did files
  refine ⟨?_, ?_, ?_, ?_, ?_, ?_⟩ <;>
    simp [uploadToR2, h, List.isEmpty_iff]

/-! ## C7: delete pipeline swallows per-object failures, reports success -/

theorem deleteLoop_eq (deleteOk : String → Bool) (keys : List String) :
    deleteLoop deleteOk keys = (keys.filter deleteOk).length := by
  induction keys with
  | nil => rfl
  | cons k ks ih =>
    simp only [deleteLoop, ih, List.filter_cons]
    cases h : deleteOk k <;> simp [h, Nat.add_comm]

/-- C7: for every delete of `(projectId, deploymentId)`, the pipeline lists
all objects under the `{projectId}/{deploymentId}/` prefix and deletes each,
swallowing per-object failures while continuing: the result is always
`success: true` with `deletedCount` the number of keys whose delete
succeeded; an empty listing (nonexistent deployment) yields
`deletedCount = 0` rather than an error. -/
theorem delete_pipeline (listKeys : String → List String) (deleteOk : String → Bool)
    (pid did : String) :
    (deleteDeployment listKeys deleteOk pid did).success = true
    ∧ (deleteDeployment listKeys deleteOk pid did).deletedCount =
        ((listKeys (pid ++ "/" ++ did ++ "/")).filter deleteOk).length
    ∧ (deleteDeployment (fun _ => []) deleteOk pid did).success = true
    ∧ (deleteDeployment (fun _ => []) deleteOk pid did).deletedCount = 0 := by
  refine ⟨rfl, ?_, rfl, rfl⟩
  simp [deleteDeployment, deleteLoop_eq]

/-! ## C10: missing worker secret fails closed before any handler runs -/

/-- C10: with `R2_SITES_WORKER_TOKEN` unset, every request to the protected
endpoints POST `/upload`, `/delete` and `/cleanup` is answered by the 500
`Server misconfigured` response at dispatch, whatever the `Authorization`
header carries; no handler is reached, so neither the request body nor the
object store is ever touched. -/
theorem auth_fails_closed (hdr : Option String) :
    workerFetch ⟨"POST", "/upload", hdr⟩ none = .response workerMisconfigured
    ∧ workerFetch ⟨"POST", "/delete", hdr⟩ none = .response workerMisconfigured
    ∧ workerFetch ⟨"POST", "/cleanup", hdr⟩ none = .response workerMisconfigured
    ∧ workerMisconfigured.status = 500 := by
  exact ⟨rfl, rfl, rfl, rfl⟩

/-! ## C3: serve path resolution order and not-found behavior -/

/-- C3: serve tries the exact requested path first; for a path with no `.` it
additionally tries the index.html candidate (`{path}index.html` when the path
already ends in `/`, else `{path}/index.html`); the first object found wins,
and when no candidate is stored the result is the not-found response naming
the requested path. -/
theorem serve_resolution (store : String → Option R2Object) (pid did fp : String)
    (inm : Option String) :
    (pathsToTry fp).head? = some fp
    ∧ (strContainsChar fp '.' = true → pathsToTry fp = [fp])
    ∧ (strContainsChar fp '.' = false → pathsToTry fp = [fp, indexCandidate fp])
    ∧ (strEndsWith fp "/" = true → indexCandidate fp = fp ++ "index.html")
    ∧ (strEndsWith fp "/" = false → indexCandidate fp = fp ++ "/index.html")
    ∧ (∀ o, store (buildR2Key pid did fp) = some o →
        firstFound store pid did (pathsToTry fp) = some (fp, o))
    ∧ (∀ o, store (buildR2Key pid did fp) = none → strContainsChar fp '.' = false →
        store (buildR2Key pid did (indexCandidate fp)) = some o →
        firstFound store pid did (pathsToTry fp) = some (indexCandidate fp, o))
    ∧ ((∀ p, p ∈ pathsToTry fp → store (buildR2Key pid did p) = none) →
        serveResponse store inm pid did fp = notFoundResponse fp)
    ∧ (notFoundResponse fp).status = 404
    ∧ (notFoundResponse fp).body = some ("File not found: " ++ fp) := by
  refine ⟨?_, ?_, ?_, ?_, ?_, ?_, ?_, ?_, rfl, rfl⟩
  · by_cases h : strContainsChar fp '.' <;> simp [pathsToTry, h]
  · intro h; simp [pathsToTry, h]
  · intro h; simp [pathsToTry, h]
  · intro h; simp [indexCandidate, h]
  · intro h; simp [indexCandidate, h]
  · intro o h
    by_cases hc : strContainsChar fp '.' <;> simp [pathsToTry, hc, firstFound, h]
  · intro o h hc h2
    simp [pathsToTry, hc, firstFound, h, h2]
  · intro h
    have h1 : store (buildR2Key pid did fp) = none := h fp (by
      by_cases hc : strContainsChar fp '.' <;> simp [pathsToTry, hc])
    by_cases hc : strContainsChar fp '.'
    · simp [serveResponse, pathsToTry, hc, firstFound, h1]
    · have h2 : store (buildR2Key pid did (indexCandidate fp)) = none := h _ (by
        simp [pathsToTry, hc])
      simp [serveResponse, pathsToTry, hc, firstFound, h1, h2]

/-- A stored demo object used to instantiate the serve theorems. -/
def demoObj : R2Object := ⟨"<h1>about</h1>", "etag-b", some "text/html; charset=utf-8"⟩

/-- A one-object demo store: only `proj/dep/about/index.html` exists. -/
def demoStore : String → Option R2Object :=
  fun k => if k == "proj/dep/about/index.html" then some demoObj else none

theorem serve_resolution_witness :
    firstFound demoStore "proj" "dep" (pathsToTry "about") = some ("about/index.html", demoObj)
    ∧ serveResponse demoStore none "proj" "dep" "missing.txt" = notFoundResponse "missing.txt" := by
  constructor
  · obtain ⟨-, -, -, -, -, -, h7, -, -, -⟩ := serve_resolution demoStore "proj" "dep" "about" none
    have := h7 demoObj (by decide) (by decide) (by decide)
    simpa [indexCandidate] using this
  · obtain ⟨-, -, -, -, -, -, -, h8, -, -⟩ :=
      serve_resolution demoStore "proj" "dep" "missing.txt" none
    exact h8 (by decide)

/-! ## C6: ETag and conditional requests -/

/-- C6: every successful serve response carries the stored object's etag; a
GET whose `If-None-Match` equals that etag is answered 304 with no body,
while any other conditional value gets the full 200 response with the body
and the same etag. -/
theorem serve_etag_conditional (store : String → Option R2Object) (pid did fp p : String)
    (o : R2Object) (inm : Option String)
    (h : firstFound store pid did (pathsToTry fp) = some (p, o)) :
    (serveResponse store inm pid did fp).etag = some o.etag
    ∧ serveResponse store (some o.etag) pid did fp =
        ⟨304, none, some (serveContentType p o), some o.etag,
          some "public, max-age=31536000, immutable"⟩
    ∧ (inm ≠ some o.etag →
        serveResponse store inm pid did fp =
          ⟨200, some o.body, some (serveContentType p o), some o.etag,
            some "public, max-age=31536000, immutable"⟩) := by
  refine ⟨?_, ?_, ?_⟩
  · by_cases hc : inm = some o.etag <;> simp [serveResponse, h, hc]
  · simp [serveResponse, h]
  · intro hc; simp [serveResponse, h, hc]

theorem serve_etag_conditional_witness :
    (serveResponse demoStore none "proj" "dep" "about").etag = some "etag-b"
    ∧ (serveResponse demoStore (some "etag-b") "proj" "dep" "about").status = 304
    ∧ (serveResponse demoStore (some "etag-b") "proj" "dep" "about").body = none
    ∧ (serveResponse demoStore none "proj" "dep" "about").status = 200 := by
  obtain ⟨h1, h2, h3⟩ :=
    serve_etag_conditional demoStore "proj" "dep" "about" "about/index.html" demoObj none
      (by decide)
  refine ⟨h1, ?_, ?_, ?_⟩
  · rw [show ("etag-b" : String) = demoObj.etag from rfl, h2]
  · rw [show ("etag-b" : String) = demoObj.etag from rfl, h2]
  · rw [h3 (by decide)]

/-! ## C2: retention cleanup sorts, keeps the newest R, and is idempotent -/

theorem insertDesc_length (time : String → Int) (m : DeploymentManifest)
    (l : List DeploymentManifest) :
    (insertDesc time m l).length = l.length + 1 := by
  induction l with
  | nil => rfl
  | cons x xs ih =>
    by_cases h : time x.createdAt ≤ time m.createdAt <;> simp [insertDesc, h, ih]

theorem insertDesc_perm (time : String → Int) (m : DeploymentManifest)
    (l : List DeploymentManifest) :
    List.Perm (insertDesc time m l) (m :: l) := by
  induction l with
  | nil => exact List.Perm.refl _
  | cons x xs ih =>
    by_cases h : time x.createdAt ≤ time m.createdAt
    · simp [insertDesc, h]
    · simp only [insertDesc, if_neg h]
      exact (List.Perm.cons x ih).trans (List.Perm.swap m x xs)

theorem sortByCreatedAtDesc_perm (time : String → Int) (l : List DeploymentManifest) :
    List.Perm (sortByCreatedAtDesc time l) l := by
  induction l with
  | nil => exact List.Perm.refl _
  | cons m rest ih =>
    exact (insertDesc_perm time m (sortByCreatedAtDesc time rest)).trans (List.Perm.cons m ih)

theorem sortByCreatedAtDesc_length (time : String → Int) (l : List DeploymentManifest) :
    (sortByCreatedAtDesc time l).length = l.length :=
  (sortByCreatedAtDesc_perm time l).length_eq

theorem insertDesc_pairwise (time : String → Int) (m : DeploymentManifest)
    {l : List DeploymentManifest}
    (hl : l.Pairwise (fun a b => time b.createdAt ≤ time a.createdAt)) :
    (insertDesc time m l).Pairwise (fun a b => time b.createdAt ≤ time a.createdAt) := by
  induction l with
  | nil => simp [insertDesc]
  | cons x xs ih =>
    rw [List.pairwise_cons] at hl
    obtain ⟨hx, hxs⟩ := hl
    by_cases hc : time x.createdAt ≤ time m.createdAt
    · rw [insertDesc, if_pos hc]
      refine List.pairwise_cons.mpr ⟨?_, List.pairwise_cons.mpr ⟨hx, hxs⟩⟩
      intro b hb
      rcases List.mem_cons.mp hb with rfl | hb2
      · exact hc
      · exact le_trans (hx b hb2) hc
    · rw [insertDesc, if_neg hc]
      refine List.pairwise_cons.mpr ⟨?_, ih hxs⟩
      intro b hb
      have hb2 : b ∈ m :: xs := (insertDesc_perm time m xs).mem_iff.mp hb
      rcases List.mem_cons.mp hb2 with rfl | hb3
      · exact le_of_lt (lt_of_not_le hc)
      · exact hx b hb3

theorem sortByCreatedAtDesc_pairwise (time : String → Int) (l : List DeploymentManifest) :
    (sortByCreatedAtDesc time l).Pairwise (fun a b => time b.createdAt ≤ time a.createdAt) := by
  induction l with
  | nil => simp [sortByCreatedAtDesc]
  | cons m rest ih => exact insertDesc_pairwise time m ih

theorem afterCleanup_length_le (time : String → Int) (r : Nat)
    (ms : List DeploymentManifest) :
    (afterCleanup time r ms).length ≤ r := by
  by_cases h : ms.length ≤ r
  · refine le_trans ?_ h
    exact List.length_filter_le _ ms
  · have hdel : cleanupOldDeployments time r ms =
        ((sortByCreatedAtDesc time ms).drop r).map (fun m => m.deploymentId) := by
      simp [cleanupOldDeployments, sortByCreatedAtDesc_length, h]
    set p : DeploymentManifest → Bool :=
      fun m => !((cleanupOldDeployments time r ms).contains m.deploymentId) with hp
    have hperm : List.Perm (List.filter p (sortByCreatedAtDesc time ms)) (List.filter p ms) :=
      (sortByCreatedAtDesc_perm time ms).filter p
    have hlen : (afterCleanup time r ms).length =
        (List.filter p (sortByCreatedAtDesc time ms)).length := by
      simp only [afterCleanup]
      exact hperm.length_eq.symm
    rw [hlen, ← List.take_append_drop r (sortByCreatedAtDesc time ms), List.filter_append,
      List.length_append]
    have hdrop : List.filter p ((sortByCreatedAtDesc time ms).drop r) = [] := by
      rw [List.filter_eq_nil_iff]
      intro a ha
      simp only [hp, Bool.not_eq_true', Bool.not_eq_false]
      rw [hdel]
      exact List.elem_iff.mpr (List.mem_map_of_mem _ ha)
    rw [hdrop]
    simp only [List.length_nil, Nat.add_zero]
    exact le_trans (List.length_filter_le p _) (List.length_take_le r _)

/-- C2: for every project and retention count `r`, cleanup sorts the
parseable manifests descending by (parsed) `createdAt`; it deletes nothing
exactly when their number is at most `r`; otherwise it deletes exactly the
deployments beyond the `r` newest (the suffix of the sorted list after index
`r - 1`); and an immediate second run on the surviving manifests deletes
nothing. -/
theorem cleanup_retention (time : String → Int) (r : Nat) (ms : List DeploymentManifest) :
    List.Perm (sortByCreatedAtDesc time ms) ms
    ∧ (sortByCreatedAtDesc time ms).Pairwise (fun a b => time b.createdAt ≤ time a.createdAt)
    ∧ (cleanupOldDeployments time r ms = [] ↔ ms.length ≤ r)
    ∧ cleanupOldDeployments time r ms =
        ((sortByCreatedAtDesc time ms).drop r).map (fun m => m.deploymentId)
    ∧ cleanupOldDeployments time r (afterCleanup time r ms) = [] := by
  refine ⟨sortByCreatedAtDesc_perm time ms, sortByCreatedAtDesc_pairwise time ms, ?_, ?_, ?_⟩
  · constructor
    · intro h
      by_contra hlt
      have hgt : r < ms.length := Nat.lt_of_not_le hlt
      have : cleanupOldDeployments time r ms ≠ [] := by
        simp only [cleanupOldDeployments, sortByCreatedAtDesc_length, if_neg hlt]
        intro hmap
        have hlen := congrArg List.length hmap
        simp only [List.length_map, List.length_drop, sortByCreatedAtDesc_length,
          List.length_nil] at hlen
        omega
      exact this h
    · intro h
      simp [cleanupOldDeployments, sortByCreatedAtDesc_length, h]
  · by_cases h : ms.length ≤ r
    · have hdrop : (sortByCreatedAtDesc time ms).drop r = [] := by
        rw [List.drop_eq_nil_iff, sortByCreatedAtDesc_length]
        exact h
      simp [cleanupOldDeployments, sortByCreatedAtDesc_length, h, hdrop]
    · simp [cleanupOldDeployments, sortByCreatedAtDesc_length, h]
  · have hle : (afterCleanup time r ms).length ≤ r := afterCleanup_length_le time r ms
    simp [cleanupOldDeployments, sortByCreatedAtDesc_length, hle]

/-! ## C4: auth error distinguishability across the layers -/

/-- C4 counterexample: at the admin delete route (one of the client → calling
application auth entry points), a request with no admin token and a request
with a wrong admin token receive the identical 401 response — the "missing"
and "invalid" cases are collapsed, contradicting the claim that they are
structurally distinguishable at both layers. -/
theorem admin_auth_collapsed :
    validateAdminToken (some "secret") none = some adminUnauthorized
    ∧ validateAdminToken (some "secret") (some "wrong") = some adminUnauthorized
    ∧ validateAdminToken (some "secret") none = validateAdminToken (some "secret") (some "wrong")
    ∧ adminUnauthorized.status = 401 := by
  exact ⟨rfl, by decide, by decide, rfl⟩

/-- C4 amended: the worker layer (`validateInternalToken`) and the publish
route's client layer (`validatePublishToken`) return structurally distinct
errors for "no credential", "credential invalid" and "server not
configured", with the misconfigured case 500-class and the other two
401-class; the admin delete route distinguishes the misconfigured case (500)
but collapses missing and invalid admin tokens into one 401 response. -/
theorem auth_error_distinguishability (tok prov hdr : String) :
    workerMisconfigured.status = 500 ∧ workerMissingHeader.status = 401
    ∧ workerBadFormat.status = 401 ∧ workerInvalidToken.status = 401
    ∧ publishMisconfigured.status = 500 ∧ publishMissingToken.status = 401
    ∧ publishInvalidToken.status = 401
    ∧ adminMisconfigured.status = 500 ∧ adminUnauthorized.status = 401
    ∧ workerMisconfigured ≠ workerMissingHeader
    ∧ workerMisconfigured ≠ workerInvalidToken
    ∧ workerMissingHeader ≠ workerInvalidToken
    ∧ publishMisconfigured ≠ publishMissingToken
    ∧ publishMisconfigured ≠ publishInvalidToken
    ∧ publishMissingToken ≠ publishInvalidToken
    ∧ adminMisconfigured ≠ adminUnauthorized
    ∧ validateInternalToken (some hdr) none = some workerMisconfigured
    ∧ (tok ≠ "" → validateInternalToken none (some tok) = some workerMissingHeader)
    ∧ (tok ≠ "" → strStartsWith hdr "Bearer " = true → strDrop hdr 7 ≠ tok →
        validateInternalToken (some hdr) (some tok) = some workerInvalidToken)
    ∧ validatePublishToken (some prov) none = some publishMisconfigured
    ∧ (tok ≠ "" → validatePublishToken none (some tok) = some publishMissingToken)
    ∧ (tok ≠ "" → prov ≠ "" → prov ≠ tok →
        validatePublishToken (some prov) (some tok) = some publishInvalidToken)
    ∧ validateAdminToken none (some prov) = some adminMisconfigured
    ∧ (tok ≠ "" → validateAdminToken (some tok) none = some adminUnauthorized)
    ∧ (tok ≠ "" → prov ≠ tok →
        validateAdminToken (some tok) (some prov) = validateAdminToken (some tok) none) := by
  refine ⟨rfl, rfl, rfl, rfl, rfl, rfl, rfl, rfl, rfl,
    by decide, by decide, by decide, by decide, by decide, by decide, by decide,
    rfl, ?_, ?_, rfl, ?_, ?_, rfl, ?_, ?_⟩
  · intro htok
    simp [validateInternalToken, htok]
  · intro htok hpre hne
    have hhdr : hdr ≠ "" := by
      intro hh
      rw [hh] at hpre
      exact absurd hpre (by decide)
    simp [validateInternalToken, htok, hhdr, hpre, hne]
  · intro htok
    simp [validatePublishToken, htok]
  · intro htok hprov hne
    simp [validatePublishToken, htok, hprov, hne]
  · intro htok
    simp [validateAdminToken, htok]
  · intro htok hne
    by_cases hprov : prov = ""
    · simp [validateAdminToken, htok, hprov]
    · simp [validateAdminToken, htok, hprov, hne]

theorem auth_error_distinguishability_witness :
    validateInternalToken (some "Bearer wrong") (some "secret") = some workerInvalidToken
    ∧ validatePublishToken (some "wrong") (some "secret") = some publishInvalidToken
    ∧ validateAdminToken (some "secret") (some "wrong") =
        validateAdminToken (some "secret") none := by
  obtain ⟨-, -, -, -, -, -, -, -, -, -, -, -, -, -, -, -, -, -, h19, -, -, h22, -, -, h25⟩ :=
    auth_error_distinguishability "secret" "wrong" "Bearer wrong"
  exact ⟨h19 (by decide) (by decide) (by decide), h22 (by decide) (by decide) (by decide),
    h25 (by decide) (by decide)⟩

/-! ## C5: retention count defaulting -/

/-- C5 counterexample: a cleanup invocation whose body carries the
non-positive `retentionCount: 0` does not behave as if the count were 5: on
a project with one deployment it deletes that deployment, while
`retentionCount: 5` (the claimed equivalent) deletes nothing. -/
theorem retention_default_counterexample :
    handleCleanupDeleted (fun _ => 0) (some 0) [⟨"p", "deploy-1-a", [], "t", 0⟩] = ["deploy-1-a"]
    ∧ handleCleanupDeleted (fun _ => 0) (some 5) [⟨"p", "deploy-1-a", [], "t", 0⟩] = []
    ∧ handleCleanupDeleted (fun _ => 0) (some 0) [⟨"p", "deploy-1-a", [], "t", 0⟩] ≠
        handleCleanupDeleted (fun _ => 0) (some 5) [⟨"p", "deploy-1-a", [], "t", 0⟩] := by
  exact ⟨by decide, by decide, by decide⟩

/-- C5 amended: the caller-side env parser `getRetentionCount` maps an
absent, non-numeric, or non-positive value to the default 5 (and a parsed
value at least 1 to itself); the worker's `handleCleanup`, however, defaults
its `retentionCount` body field to 5 only when the field is absent — a
supplied non-positive number is used as-is and is not treated as 5. -/
theorem retention_default (s : String) (time : String → Int) (ms : List DeploymentManifest) :
    getRetentionCount none = 5
    ∧ (jsParseInt s = none → getRetentionCount (some s) = 5)
    ∧ (∀ p : Int, jsParseInt s = some p → p < 1 → getRetentionCount (some s) = 5)
    ∧ (∀ p : Int, jsParseInt s = some p → 1 ≤ p → getRetentionCount (some s) = p)
    ∧ handleCleanupDeleted time none ms = handleCleanupDeleted time (some 5) ms := by
  refine ⟨rfl, ?_, ?_, ?_, rfl⟩
  · intro h
    by_cases hs : s = "" <;> simp [getRetentionCount, hs, h]
  · intro p hp hlt
    by_cases hs : s = ""
    · simp [getRetentionCount, hs]
    · simp [getRetentionCount, hs, hp, hlt]
  · intro p hp hge
    by_cases hs : s = ""
    · rw [hs] at hp
      have h0 : jsParseInt "" = none := rfl
      rw [h0] at hp
      exact Option.noConfusion hp
    · have : ¬ p < 1 := not_lt.mpr hge
      simp [getRetentionCount, hs, hp, this]

theorem retention_default_witness :
    getRetentionCount (some "abc") = 5
    ∧ getRetentionCount (some "0") = 5
    ∧ getRetentionCount (some "7") = 7
    ∧ getRetentionCount none = 5 := by
  obtain ⟨a1, a2, -, -, -⟩ := retention_default "abc" (fun _ => 0) []
  obtain ⟨-, -, b3, -, -⟩ := retention_default "0" (fun _ => 0) []
  obtain ⟨-, -, -, c4, -⟩ := retention_default "7" (fun _ => 0) []
  exact ⟨a2 (by decide), b3 0 (by decide) (by decide), c4 7 (by decide) (by decide), a1⟩

/-! ## C8: MIME resolution -/

theorem getLastD_cons_of_ne_nil {α : Type} {l : List α} (a : α) (d : α) (h : l ≠ []) :
    (a :: l).getLastD d = l.getLastD d := by
  cases l with
  | nil => exact absurd rfl h
  | cons x xs => simp [List.getLastD]

theorem splitChar_ne_nil (sep : Char) (cs : List Char) : splitChar sep cs ≠ [] := by
  induction cs with
  | nil => simp [splitChar]
  | cons c rest ih =>
    rw [splitChar_cons]
    cases h : splitChar sep rest with
    | nil => simp [splitConsCase]
    | cons s ss =>
      rw [splitConsCase_cons]
      by_cases hc : c = sep <;> simp [hc]

theorem splitChar_length (sep : Char) (cs : List Char) :
    (splitChar sep cs).length = cs.count sep + 1 := by
  induction cs with
  | nil => simp [splitChar]
  | cons c rest ih =>
    rw [splitChar_cons]
    cases h : splitChar sep rest with
    | nil => exact absurd h (splitChar_ne_nil sep rest)
    | cons s ss =>
      rw [h] at ih
      rw [splitConsCase_cons]
      simp only [List.length_cons] at ih
      by_cases hc : c = sep
      · rw [if_pos hc]
        have hcount : (c :: rest).count sep = rest.count sep + 1 := by
          simp [List.count_cons, hc]
        simp only [List.length_cons, hcount]
        omega
      · rw [if_neg hc]
        have hcount : (c :: rest).count sep = rest.count sep := by
          simp [List.count_cons, hc]
        simp only [List.length_cons, hcount]
        omega

theorem splitChar_no_sep (sep : Char) (cs : List Char) (h : sep ∉ cs) :
    splitChar sep cs = [cs] := by
  induction cs with
  | nil => rfl
  | cons c rest ih =>
    have hc : c ≠ sep := fun he => h (he ▸ List.mem_cons_self c rest)
    have hrest : sep ∉ rest := fun hm => h (List.mem_cons_of_mem c hm)
    rw [splitChar_cons, ih hrest, splitConsCase_cons]
    simp [hc]

theorem splitChar_after_sep (sep : Char) (pre ext : List Char) :
    (splitChar sep (pre ++ sep :: ext)).getLastD [] = (splitChar sep ext).getLastD [] := by
  induction pre with
  | nil =>
    rw [List.nil_append, splitChar_cons]
    cases h : splitChar sep ext with
    | nil => exact absurd h (splitChar_ne_nil sep ext)
    | cons s ss =>
      rw [splitConsCase_cons, if_pos rfl, getLastD_cons_of_ne_nil _ _ (by simp)]
  | cons c pre ih =>
    rw [List.cons_append, splitChar_cons]
    cases h : splitChar sep (pre ++ sep :: ext) with
    | nil => exact absurd h (splitChar_ne_nil sep _)
    | cons s ss =>
      have hss : ss ≠ [] := by
        intro hnil
        have hlen := splitChar_length sep (pre ++ sep :: ext)
        rw [h, hnil] at hlen
        have hcount : 0 < (pre ++ sep :: ext).count sep :=
          List.count_pos_iff.mpr (List.mem_append_right pre (List.mem_cons_self sep ext))
        simp only [List.length_cons, List.length_nil] at hlen
        omega
      rw [h] at ih
      rw [splitConsCase_cons]
      by_cases hc : c = sep
      · rw [if_pos hc, getLastD_cons_of_ne_nil _ _ (by simp)]
        exact ih
      · rw [if_neg hc, getLastD_cons_of_ne_nil _ _ hss]
        rw [getLastD_cons_of_ne_nil _ _ hss] at ih
        exact ih

/-- C8 counterexample: MIME resolution does not return
`application/octet-stream` for every path with no `.`: a file whose whole
name is a known extension, such as `html`, resolves to that extension's
type, because `split('.').pop()` on a dot-less path yields the whole path. -/
theorem mime_noDot_counterexample :
    strContainsChar "html" '.' = false
    ∧ getMimeType "html" = "text/html; charset=utf-8"
    ∧ getMimeType "html" ≠ "application/octet-stream" := by
  exact ⟨by decide, by decide, by decide⟩

/-- C8 amended: MIME resolution lowercases the last `.`-separated segment of
the path — the substring after the last `.` when one exists, and the whole
path when there is none — and looks it up in the fixed table, returning
`application/octet-stream` for unknown segments; consequently a dot-less
path resolves to octet-stream only when its lowercased name is not itself a
table key (e.g. `README`), while a dot-less path such as `html` resolves to
the table entry. -/
theorem mime_resolution (p : String) :
    (strContainsChar p '.' = false →
      getMimeType p =
        (MIME_TYPES.lookup (String.mk (p.toList.map Char.toLower))).getD
          "application/octet-stream")
    ∧ (∀ pre ext : List Char, p.toList = pre ++ '.' :: ext → ('.') ∉ ext →
      getMimeType p =
        (MIME_TYPES.lookup (String.mk (ext.map Char.toLower))).getD
          "application/octet-stream")
    ∧ getMimeType "html" = "text/html; charset=utf-8"
    ∧ getMimeType "README" = "application/octet-stream"
    ∧ getMimeType "" = "application/octet-stream" := by
  refine ⟨?_, ?_, by decide, by decide, by decide⟩
  · intro h
    have hmem : ('.') ∉ p.toList := by
      intro hm
      have hc : p.toList.contains '.' = true := List.elem_iff.mpr hm
      rw [strContainsChar, hc] at h
      exact Bool.noConfusion h
    rw [getMimeType, splitChar_no_sep _ _ hmem]
    rfl
  · intro pre ext hsplit hext
    rw [getMimeType, hsplit, splitChar_after_sep, splitChar_no_sep _ _ hext]
    rfl

theorem mime_resolution_witness :
    getMimeType "app.JS" = "application/javascript; charset=utf-8"
    ∧ getMimeType "archive.tar.xyz" = "application/octet-stream" := by
  obtain ⟨-, h2, -, -, -⟩ := mime_resolution "app.JS"
  obtain ⟨-, g2, -, -, -⟩ := mime_resolution "archive.tar.xyz"
  constructor
  · rw [h2 ['a', 'p', 'p'] ['J', 'S'] (by decide) (by decide)]
    decide
  · rw [g2 ['a', 'r', 'c', 'h', 'i', 'v', 'e', '.', 't', 'a', 'r'] ['x', 'y', 'z']
      (by decide) (by decide)]
    decide

/-! ## C9: deployment id shape -/

theorem base36DigitChar_lowerAlnum : ∀ d : Fin 36, isLowerAlnum (base36DigitChar d) = true := by
  decide

theorem digitChar_isDigit_of_lt (m : Nat) (h : m < 10) : (Nat.digitChar m).isDigit = true := by
  interval_cases m <;> decide

theorem toDigitsCore_succ (fuel n : Nat) (ds : List Char) :
    Nat.toDigitsCore 10 (fuel + 1) n ds =
      (if n / 10 = 0 then Nat.digitChar (n % 10) :: ds
       else Nat.toDigitsCore 10 fuel (n / 10) (Nat.digitChar (n % 10) :: ds)) := by
  conv_lhs => rw [Nat.toDigitsCore]

theorem toDigitsCore_digits (fuel : Nat) :
    ∀ (n : Nat) (ds : List Char), (∀ c ∈ ds, c.isDigit = true) →
      ∀ c ∈ Nat.toDigitsCore 10 fuel n ds, c.isDigit = true := by
  induction fuel with
  | zero => intro n ds hds c hc; exact hds c hc
  | succ fuel ih =>
    intro n ds hds c hc
    rw [toDigitsCore_succ] at hc
    have hdig : (Nat.digitChar (n % 10)).isDigit = true :=
      digitChar_isDigit_of_lt (n % 10) (Nat.mod_lt n (by omega))
    by_cases h0 : n / 10 = 0
    · rw [if_pos h0] at hc
      rcases List.mem_cons.mp hc with rfl | hmem
      · exact hdig
      · exact hds c hmem
    · rw [if_neg h0] at hc
      refine ih (n / 10) (Nat.digitChar (n % 10) :: ds) ?_ c hc
      intro d hd
      rcases List.mem_cons.mp hd with rfl | hmem
      · exact hdig
      · exact hds d hmem

theorem toDigitsCore_ne_nil (fuel : Nat) :
    ∀ (n : Nat) (ds : List Char), ds ≠ [] → Nat.toDigitsCore 10 fuel n ds ≠ [] := by
  induction fuel with
  | zero => intro n ds hds; exact hds
  | succ fuel ih =>
    intro n ds hds
    rw [toDigitsCore_succ]
    by_cases h0 : n / 10 = 0
    · rw [if_pos h0]; simp
    · rw [if_neg h0]
      exact ih (n / 10) _ (by simp)

theorem repr_toList_eq (n : Nat) : (Nat.repr n).toList = Nat.toDigits 10 n := rfl

theorem repr_toList_digits (n : Nat) : ∀ c ∈ (Nat.repr n).toList, c.isDigit = true := by
  rw [repr_toList_eq]
  exact toDigitsCore_digits (n + 1) n [] (by simp)

theorem repr_toList_ne_nil (n : Nat) : (Nat.repr n).toList ≠ [] := by
  rw [repr_toList_eq]
  show Nat.toDigitsCore 10 (n + 1) n [] ≠ []
  rw [toDigitsCore_succ]
  by_cases h0 : n / 10 = 0
  · rw [if_pos h0]; simp
  · rw [if_neg h0]
    exact toDigitsCore_ne_nil n (n / 10) _ (by simp)

theorem consumeLit_append (pre cs : List Char) : consumeLit pre (pre ++ cs) = some cs := by
  induction pre with
  | nil => rfl
  | cons p ps ih => simp [consumeLit, ih]

theorem takeWhile_append_stop {p : Char → Bool} (ds : List Char)
    (hall : ∀ c ∈ ds, p c = true) (c0 : Char) (cs : List Char) (h0 : p c0 = false) :
    (ds ++ c0 :: cs).takeWhile p = ds ∧ (ds ++ c0 :: cs).dropWhile p = c0 :: cs := by
  induction ds with
  | nil => simp [h0]
  | cons d rest ih =>
    have hd : p d = true := hall d (List.mem_cons_self d rest)
    have hrest : ∀ c ∈ rest, p c = true := fun c hc => hall c (List.mem_cons_of_mem d hc)
    obtain ⟨h1, h2⟩ := ih hrest
    simp [hd, h1, h2]

theorem dashSuffixCheck_cons (suf : List Char) :
    dashSuffixCheck ('-' :: suf) = ((decide (suf ≠ [])) && suf.all isLowerAlnum) := rfl

theorem strToList_append (s t : String) : (s ++ t).toList = s.toList ++ t.toList := rfl

/-- C9 counterexample: the random draw 0 prints as `"0"`, whose
`substring(2, 8)` is empty, so the generated id ends in a dash and fails the
validation pattern `^deploy-\d+-[a-z0-9]+$`; the draw 0.5 (base-36 digit
list `[18]`) yields a 1-character suffix rather than the claimed 6. -/
theorem deploymentId_counterexample :
    generateDeploymentId 1700000000000 [] = "deploy-1700000000000-"
    ∧ matchesDeploymentIdPattern (generateDeploymentId 1700000000000 []) = false
    ∧ (deploySuffix [(18 : Fin 36)]).length = 1 := by
  exact ⟨by decide, by decide, by decide⟩

/-- C9 amended: every generated id has the form
`deploy-{timestamp}-{suffix}` where the suffix is the first at-most-6
base-36 fraction digits of the random draw (so its length is
`min 6 (number of digits)`, not always 6), every suffix character is in
`[a-z0-9]`, and the id matches `^deploy-\d+-[a-z0-9]+$` exactly when the
draw has at least one base-36 digit (the draw 0 produces an empty suffix
and fails the pattern). -/
theorem deploymentId_generation (ts : Nat) (ds : List (Fin 36)) :
    generateDeploymentId ts ds = "deploy-" ++ Nat.repr ts ++ "-" ++ deploySuffix ds
    ∧ (deploySuffix ds).toList = (ds.map base36DigitChar).take 6
    ∧ (deploySuffix ds).length = min 6 ds.length
    ∧ (∀ c ∈ (deploySuffix ds).toList, isLowerAlnum c = true)
    ∧ (ds = [] → matchesDeploymentIdPattern (generateDeploymentId ts ds) = false)
    ∧ (ds ≠ [] → matchesDeploymentIdPattern (generateDeploymentId ts ds) = true) := by
  have hsuffix : (deploySuffix ds).toList = (ds.map base36DigitChar).take 6 := by
    cases ds with
    | nil => rfl
    | cons d rest =>
      show (jsSubstring ("0." ++ String.mk ((d :: rest).map base36DigitChar)) 2 8).toList = _
      rw [jsSubstring]
      simp [strToList_append]
  have halnum : ∀ c ∈ (deploySuffix ds).toList, isLowerAlnum c = true := by
    rw [hsuffix]
    intro c hc
    have hc2 : c ∈ ds.map base36DigitChar := List.mem_of_mem_take hc
    obtain ⟨d, -, rfl⟩ := List.mem_map.mp hc2
    exact base36DigitChar_lowerAlnum d
  have hchars : (generateDeploymentId ts ds).toList =
      "deploy-".toList ++ ((Nat.repr ts).toList ++ ('-' :: (deploySuffix ds).toList)) := by
    show ("deploy-" ++ Nat.repr ts ++ "-" ++ deploySuffix ds).toList = _
    simp [strToList_append, List.append_assoc]
  have hsplit := takeWhile_append_stop (p := Char.isDigit) (Nat.repr ts).toList
    (repr_toList_digits ts) '-' (deploySuffix ds).toList (by decide)
  refine ⟨rfl, hsuffix, ?_, halnum, ?_, ?_⟩
  · show (deploySuffix ds).toList.length = min 6 ds.length
    rw [hsuffix, List.length_take, List.length_map]
  · intro hnil
    have hsufNil : (deploySuffix ds).toList = [] := by rw [hsuffix, hnil]; rfl
    rw [matchesDeploymentIdPattern, hchars, hsufNil, consumeLit_append]
    rw [hsufNil] at hsplit
    simp only [Option.map_some', Option.getD_some, patternTail, hsplit.1, hsplit.2,
      dashSuffixCheck_cons]
    simp
  · intro hne
    have hsufNe : (deploySuffix ds).toList ≠ [] := by
      rw [hsuffix]
      cases ds with
      | nil => exact absurd rfl hne
      | cons d rest => simp
    rw [matchesDeploymentIdPattern, hchars, consumeLit_append]
    simp only [Option.map_some', Option.getD_some, patternTail, hsplit.1, hsplit.2,
      dashSuffixCheck_cons]
    simp only [Bool.and_eq_true, decide_eq_true_eq, List.all_eq_true]
    exact ⟨repr_toList_ne_nil ts, hsufNe, halnum⟩

theorem deploymentId_generation_witness :
    matchesDeploymentIdPattern (generateDeploymentId 1712345678901 [18, 3]) = true
    ∧ (deploySuffix [18, 3] : String).length = 2 := by
  obtain ⟨-, -, h3, -, -, h6⟩ := deploymentId_generation 1712345678901 [18, 3]
  exact ⟨h6 (by decide), by rw [h3]; decide⟩

end XBuilder
